import Mathlib

/-!
Shallow embedding of the Cosmoglobe sky-model package (Python) in Lean 4,
used to settle a list of claims about the code.

Embedded modules:
* `cosmoglobe/sky/model.py`   — the `Model` container (`_add_component`,
  `insert`, `remove`, `__delitem__`).
* `cosmoglobe/sky/base.py`    — `_Component._reshape_freq_ref`,
  `_Component._get_bandpass_scaling`, `_PointSourceComponent._points_to_map`.
* `cosmoglobe/sky/chain/model.py` and `cosmoglobe/tools/h5.py` — the
  chain-to-model reconstruction (`model_from_chain`, `comp_from_chain`,
  `_get_averaged_items`) and the polarization-flag computation for
  spherical-harmonic (alm) data.

Numeric arrays are embedded as lists of rationals (exact arithmetic);
external collaborators (healpy pixelization, spherical-harmonic transforms,
unit conversion) are parameters of the embedding, as the spec declares them
out of scope.  Python exceptions become explicit error values; Python
warnings become an explicit list of warning strings in the result.
-/

namespace Cosmoglobe

/-- A sky component as seen by the `Model` container of
`cosmoglobe/sky/model.py`: the container only consults the component's
`name` attribute and `hp.get_nside(component.amp)` (the pixelization
collaborator applied to the amplitude map), so those are the fields kept. -/
structure SkyComp where
  name : String
  /-- Value of the pixelization collaborator `hp.get_nside(component.amp)`. -/
  ampNside : Nat
deriving DecidableEq, Repr

/-- Errors raised by the container operations of `cosmoglobe/sky/model.py`.
`duplicateComponent` is the `KeyError` of `_add_component` (spec name
`DuplicateComponentError`), `nsideMismatch` is `NsideError` (spec name
`ResolutionMismatchError`), `componentNotFound` is the `KeyError` of
`__delitem__` (spec name `ComponentNotFoundError`). -/
inductive ModelError where
  | duplicateComponent
  | nsideMismatch
  | componentNotFound
deriving DecidableEq, Repr

/-- The mutable state of a `Model` object (`cosmoglobe/sky/model.py`):
`nside` (`None` when unset), the insertion-ordered `components` dict
(an association list with unique keys), and the set of component-named
attributes bound on the object via `setattr` / removed via `delattr`. -/
structure Model where
  nside : Option Nat
  components : List (String × SkyComp)
  attrs : Finset String
deriving DecidableEq

/-- The fresh model `Model(components=None, nside=None)`:
no components, unset nside, no component-named attributes. -/
def Model.empty : Model := { nside := none, components := [], attrs := ∅ }

/-- `Model._add_component` (model.py lines 34–54).  Mutations are applied in
source order and a raise aborts the remaining ones, so the function returns
the state as left by the Python method together with the error, if any:
1. duplicate-name check (`KeyError`),
2. nside check: adopt the component's nside when unset, raise `NsideError`
   on a mismatch,
3. `setattr(self, name, component)`,
4. `self.components[name] = component`. -/
def Model.addComponent (m : Model) (c : SkyComp) : Model × Option ModelError :=
  if (m.components.lookup c.name).isSome then
    (m, some .duplicateComponent)
  else
    match m.nside with
    | none =>
        let m' : Model :=
          { nside := some c.ampNside
            components := m.components ++ [(c.name, c)]
            attrs := insert c.name m.attrs }
        (m', none)
    | some n =>
        if c.ampNside ≠ n then
          (m, some .nsideMismatch)
        else
          let m' : Model :=
            { nside := m.nside
              components := m.components ++ [(c.name, c)]
              attrs := insert c.name m.attrs }
          (m', none)

/-- `Model.insert` (model.py lines 57–67) simply delegates to
`_add_component`. -/
def Model.insert (m : Model) (c : SkyComp) : Model × Option ModelError :=
  m.addComponent c

/-- `Model.__delitem__` (model.py lines 166–171), which `Model.remove`
delegates to: `KeyError` when absent, otherwise `delattr` then
`del self.components[name]`.  `self.nside` is not touched. -/
def Model.delComponent (m : Model) (name : String) : Model × Option ModelError :=
  if (m.components.lookup name).isNone then
    (m, some .componentNotFound)
  else
    ({ nside := m.nside
       components := m.components.filter (fun p => p.1 ≠ name)
       attrs := m.attrs.erase name }, none)

/-- `Model.remove` (model.py lines 70–79) delegates to `__delitem__`. -/
def Model.remove (m : Model) (name : String) : Model × Option ModelError :=
  m.delComponent name

/-- The invariant relating the component-named attributes bound on a model
object to the key set of its `components` dict. -/
def Model.attrsMatchComponents (m : Model) : Prop :=
  m.attrs = (m.components.map Prod.fst).toFinset

/-- A container-mutation request: `Model.insert` of a component or
`Model.remove` of a component name. -/
inductive ModelOp where
  | ins (c : SkyComp)
  | del (name : String)

/-- Applies one mutation request, keeping the state the operation left
behind (unchanged when the operation raised). -/
def Model.applyOp (m : Model) : ModelOp → Model
  | .ins c => (m.insert c).1
  | .del name => (m.remove name).1

/-- Applies a sequence of mutation requests in order. -/
def Model.applyOps (m : Model) (ops : List ModelOp) : Model :=
  ops.foldl Model.applyOp m

/-! ## `cosmoglobe/sky/base.py`: `_Component._reshape_freq_ref` -/

/-- A numpy array: an explicit shape together with the flat data in row-major
order.  Rationals stand for the floating-point entries (exact arithmetic). -/
structure NDArray where
  shape : List Nat
  data : List ℚ
deriving DecidableEq, Repr

/-- `_Component._reshape_freq_ref` (base.py lines 227–241).  Branches on
`freq_ref.size` (the element count): `None` passes through, one element is
returned unchanged, two elements `[a, b]` become the column
`[[a], [b], [b]]` of shape `(3, 1)`, three elements are reshaped to
`(3, 1)`, and any other size raises `ValueError('Unrecognized shape.')`. -/
def reshapeFreqRef : Option NDArray → Except String (Option NDArray)
  | none => Except.ok none
  | some f =>
    match f.data with
    | [_] => Except.ok (some f)
    | [a, b] => Except.ok (some { shape := [3, 1], data := [a, b, b] })
    | [a, b, c] => Except.ok (some { shape := [3, 1], data := [a, b, c] })
    | _ => Except.error "Unrecognized shape."

/-! ## `cosmoglobe/sky/base.py`: `_Component._get_bandpass_scaling` -/

/-- A spectral-parameter value: a scalar, or a spatially varying map. -/
inductive ParamValue where
  | scalar (v : ℚ)
  | pixmap (vs : List ℚ)
deriving DecidableEq

/-- Modelled from the spec: `get_interpolation_grid` of the module
`cosmoglobe/utils/bandpass.py`, which is not among the provided sources.
Per spec §4.2 it determines the set of spectral parameters that vary
spatially (a map, not a scalar); its length is the interpolation grid
dimension `d`. -/
def getInterpolationGrid (params : List (String × ParamValue)) :
    List (String × List ℚ) :=
  params.filterMap fun p =>
    match p.2 with
    | .scalar _ => none
    | .pixmap vs => some (p.1, vs)

/-- `np.trapz(y, x)`: trapezoidal quadrature of samples `y` over grid `x`. -/
def trapz : List ℚ → List ℚ → ℚ
  | y₁ :: y₂ :: ys, x₁ :: x₂ :: xs =>
      (x₂ - x₁) * (y₁ + y₂) / 2 + trapz (y₂ :: ys) (x₂ :: xs)
  | _, _ => 0

/-- Modelled from the spec: the 1D/2D interpolation routines `interp1d` and
`interp2d` of the absent module `cosmoglobe/utils/bandpass.py`, which per
spec §4.2 return a per-pixel scaling factor by table lookup; they are
collaborators of `_get_bandpass_scaling` and raise no
dimensionality error themselves. -/
structure BandpassModule where
  interp1d : List ℚ → List ℚ → List (String × List ℚ) → List ℚ
  interp2d : List ℚ → List ℚ → List (String × List ℚ) → List ℚ

/-- A component as consumed by `_get_bandpass_scaling`: its
`spectral_parameters` dict and its abstract per-variant SED
`_get_freq_scaling(freqs, freq_ref, **spectral_parameters)`, already closed
over `freq_ref` and the parameters, returning one scaling per frequency. -/
structure BandpassComponent where
  spectralParameters : List (String × ParamValue)
  getFreqScaling : List ℚ → List ℚ

/-- The error of the `else` branch of `_get_bandpass_scaling` (base.py
lines 221–225): Python `NotImplementedError`, named
`UnsupportedParameterDimensionality` by the spec. -/
inductive ScalingError where
  | unsupportedParameterDimensionality
deriving DecidableEq

/-- `_Component._get_bandpass_scaling` (base.py lines 180–225): compute the
interpolation grid; with no spatially varying parameter integrate
`freq_scaling * bandpass` over the frequencies by trapezoidal quadrature,
with one parameter call `bp.interp1d`, with two call `bp.interp2d`, and
otherwise raise (`NotImplementedError`). -/
def getBandpassScaling (bpmod : BandpassModule) (comp : BandpassComponent)
    (freqs bandpass : List ℚ) : Except ScalingError (List ℚ) :=
  let grid := getInterpolationGrid comp.spectralParameters
  if grid.isEmpty then
    Except.ok [trapz (List.zipWith (· * ·) (comp.getFreqScaling freqs) bandpass) freqs]
  else if grid.length = 1 then
    Except.ok (bpmod.interp1d freqs bandpass grid)
  else if grid.length = 2 then
    Except.ok (bpmod.interp2d freqs bandpass grid)
  else
    Except.error ScalingError.unsupportedParameterDimensionality

/-! ## `cosmoglobe/sky/base.py`: `_PointSourceComponent._points_to_map` -/

/-- `hp.nside2npix`: the pixel count of the HEALPix grid, `12 * nside²`
(spec glossary). -/
def nside2npix (nside : Nat) : Nat := 12 * nside ^ 2

/-- The beam area computed in `_points_to_map`: either
`hp.nside2pixarea(nside) * u.sr` (the `sigma == 0` branch) or
`2 * π * sigma ** 2` (the truncated-Gaussian branch).  Kept symbolic: it is
consumed only by the brightness-temperature conversion collaborator. -/
inductive BeamArea where
  | pixArea (nside : Nat)
  | gaussArea (sigma : ℚ)

/-- The healpy pixelization collaborators consumed by `_points_to_map`,
plus the two unit-level collaborators.  `ang2pix`, `pix2ang`, `queryDisc`
and `angdist` take and return (longitude, latitude) pairs in degrees
(`lonlat=True` in the source); `queryDisc` fuses `hp.ang2vec` with
`hp.query_disc`.  `gaussianBeam2D` is modelled from the spec (the module
`cosmoglobe/utils/utils.py` holding `gaussian_beam_2D` is not among the
provided sources): a normalized 2D Gaussian kernel of the angular distance
and the beam sigma.  `brightnessFactor` is the multiplicative factor of the
linear unit conversion `healpix_map.to(u.uK,
u.brightness_temperature(self.freq_ref, beam_area))`.  `fwhmSigmaRatio`
stands for the constant `2*np.sqrt(2*np.log(2))`. -/
structure HealpyCtx where
  ang2pix : Nat → ℚ × ℚ → Nat
  pix2ang : Nat → Nat → ℚ × ℚ
  nside2resol : Nat → ℚ
  queryDisc : Nat → ℚ × ℚ → ℚ → List Nat
  angdist : ℚ × ℚ → ℚ × ℚ → ℚ
  gaussianBeam2D : ℚ → ℚ → ℚ
  brightnessFactor : ℚ → BeamArea → ℚ
  fwhmSigmaRatio : ℚ

/-- The fields of a `_PointSourceComponent` read by `_points_to_map`:
`self.nside`, `self.angular_coords` ((longitude, latitude) per catalog
source) and `self.freq_ref`. -/
structure PointSourceComp where
  nside : Nat
  angularCoords : List (ℚ × ℚ)
  freqRef : ℚ

/-- The `ValueError('fwhm must be >= pixel resolution ...')` of the
truncated-Gaussian branch, named `BeamTooNarrowError` by the spec. -/
inductive PointsError where
  | beamTooNarrow
deriving DecidableEq

/-- Numpy fancy-index assignment `m[idxs] = vals`: the assignments are
applied index by index, so when an index repeats the value written last
wins (no accumulation). -/
def fancyIndexAssign (m : List ℚ) (idxs : List Nat) (vals : List ℚ) :
    List ℚ :=
  (idxs.zip vals).foldl (fun acc iv => acc.set iv.1 iv.2) m

/-- In-place `m[i] += v` on a flat map. -/
def listAddAt (m : List ℚ) (i : Nat) (v : ℚ) : List ℚ :=
  m.set i (m.getD i 0 + v)

/-- `_PointSourceComponent._points_to_map` (base.py lines 429–510).  The
source-order steps:
* `nside = self.nside` (line 455) — the `nside` parameter of the method is
  overwritten before any use, so `nsideArg` is dead;
* `amp` arrives squeezed to one value per catalog source (the
  `np.squeeze` of line 458 is pre-applied to the rank-1 embedding);
* `sigma = fwhm / (2*np.sqrt(2*np.log(2)))` unless an explicit `sigma` was
  passed;
* `sigma == 0`: warn, compute each source's pixel with `hp.ang2pix`, and
  write the amplitudes with the fancy-index assignment
  `healpix_map[pixels] = amp`;
* otherwise require `fwhm >= hp.nside2resol(nside)` (else `ValueError`),
  and for each source accumulate `amp[idx] * beam(r, sigma)` with `+=`
  over the pixels of `hp.query_disc` within `r_max = n_fwhm * fwhm`;
* convert to brightness temperature with the beam area and
  `self.freq_ref`, and expand to shape `(1, npix)`.
The result is the warning list together with the `(1, npix)` map. -/
def pointsToMap (hp : HealpyCtx) (self : PointSourceComp) (amp : List ℚ)
    (nsideArg : Option Nat) (fwhm : ℚ) (sigmaArg : Option ℚ)
    (nFwhm : ℚ) : Except PointsError (List String × List (List ℚ)) :=
  let nside := self.nside
  let healpixMap : List ℚ := List.replicate (nside2npix nside) 0
  let angularCoords := self.angularCoords
  let sigma : ℚ :=
    match sigmaArg with
    | none => fwhm / hp.fwhmSigmaRatio
    | some s => s
  if sigma = 0 then
    let warning := "mapping point sources to pixels without beam smoothing."
    let pixels := angularCoords.map (hp.ang2pix nside)
    let beamArea := BeamArea.pixArea nside
    let m := fancyIndexAssign healpixMap pixels amp
    let m := m.map fun v => v * hp.brightnessFactor self.freqRef beamArea
    Except.ok ([warning], [m])
  else
    let pixRes := hp.nside2resol nside
    if fwhm < pixRes then
      Except.error PointsError.beamTooNarrow
    else
      let beamArea := BeamArea.gaussArea sigma
      let rMax := nFwhm * fwhm
      let m := (amp.zip angularCoords).foldl
        (fun acc av =>
          let inds := hp.queryDisc nside av.2 rMax
          inds.foldl
            (fun acc2 i =>
              listAddAt acc2 i
                (av.1 * hp.gaussianBeam2D (hp.angdist (hp.pix2ang nside i) av.2) sigma))
            acc)
        healpixMap
      let m := m.map fun v => v * hp.brightnessFactor self.freqRef beamArea
      Except.ok ([], [m])

/-! ## `cosmoglobe/sky/chain/model.py` and `cosmoglobe/tools/h5.py`:
chain-to-model reconstruction -/

/-- `ChainVersion` of `cosmoglobe/h5/chain.py`: `OLD` is an archive without
the parameter group, `CURRENT` has one. -/
inductive ChainVersion where
  | old
  | current
deriving DecidableEq

/-- The fatal reconstruction errors of `cosmoglobe/h5/_exceptions.py`
raised by `model_from_chain` / `comp_from_chain`. -/
inductive ChainError where
  | chainFormatError
  | chainComponentNotFoundError
  | chainKeyError
deriving DecidableEq

/-- The archive as consumed by `model_from_chain`
(`cosmoglobe/sky/chain/model.py`): its version, its component list, and
the per-component reconstruction `comp_from_chain(chain, nside, component,
component_class, samples)` together with the registered-sky-model class
lookup that precedes it — both folded into `readComp`, since the component
classes (`cosmoglobe/sky/csm.py`) are not among the provided sources.  A
read of the archive for a component happens only inside `readComp`. -/
structure ChainArchive where
  version : ChainVersion
  components : List String
  readComp : String → Except ChainError SkyComp

/-- The component-initialization loop of `model_from_chain`
(chain/model.py lines 79–92): initialize the requested components one by
one, appending each to `initialized_components`; the first error aborts
the loop and propagates. -/
def initComponents (chain : ChainArchive) :
    List String → List (String × SkyComp) →
    Except ChainError (List (String × SkyComp))
  | [], acc => Except.ok acc
  | c :: cs, acc =>
    match chain.readComp c with
    | Except.error e => Except.error e
    | Except.ok d => initComponents chain cs (acc ++ [(c, d)])

/-- `model_from_chain` (chain/model.py lines 25–94), with the I/O shell
(path handling, progress bar) dropped: raise `ChainFormatError` when the
chain version is `OLD`; default the requested component list to
`chain.components`, else raise `ChainComponentNotFoundError` when a
requested component is absent from the chain; then run the
initialization loop; finally return the full name-to-component mapping
handed to `SkyModel`. -/
def modelFromChain (chain : ChainArchive)
    (componentsArg : Option (List String)) :
    Except ChainError (List (String × SkyComp)) :=
  if chain.version = ChainVersion.old then
    Except.error ChainError.chainFormatError
  else
    match componentsArg with
    | none => initComponents chain chain.components []
    | some cs =>
        if cs.any (fun c => !(chain.components.contains c)) then
          Except.error ChainError.chainComponentNotFoundError
        else
          initComponents chain cs []

/-- The polarization flag computed in `comp_from_chain` of
`cosmoglobe/sky/chain/model.py` line 145 for alm data:
`pol = True if arg == "amp" and value.shape[0] == 3 else False`. -/
def almPolFlagChainModel (arg : String) (valueShape0 : Nat) : Bool :=
  if arg = "amp" ∧ valueShape0 = 3 then true else false

/-- The polarization flag computed in `comp_from_chain` of
`cosmoglobe/tools/h5.py` lines 199–202 for alm data, inside
`for key, value in alms.items()`: the source compares the literal string
`'key'` — not the loop variable `key` — against `'amp'`:
`if 'key' == 'amp': pol = True else: pol = False`. -/
def almPolFlagH5 (key : String) : Bool :=
  if "key" = "amp" then true else false

/-- The per-item polarization flags the `tools/h5.py` alm loop (lines
197–211) hands to `hp.alm2map`. -/
def h5AlmPolFlags (almKeys : List String) : List (String × Bool) :=
  almKeys.map fun key => (key, almPolFlagH5 key)

/-! ## `cosmoglobe/tools/h5.py`: `_get_averaged_items` -/

/-- The accumulator loop of `_get_averaged_items` (h5.py lines 343–360)
for one sample: for each item value `v` at position `idx`, try
`items_to_return[idx] += v` and on `IndexError` append `v` instead. -/
def accumItemsGo : List ℚ → List ℚ → Nat → List ℚ
  | acc, [], _ => acc
  | acc, v :: vs, idx =>
    if idx < acc.length then
      accumItemsGo (acc.set idx (acc.getD idx 0 + v)) vs (idx + 1)
    else
      accumItemsGo (acc ++ [v]) vs (idx + 1)

/-- `_get_averaged_items` (h5.py lines 320–370), list-of-items branch:
`read sample component item` is the archive read
`f[sample][component].get(item)[()]` (one array entry, embedded as one
rational); the per-sample values are accumulated positionally and each
total is divided by `len(samples)`. -/
def getAveragedItems (read : String → String → String → ℚ)
    (samples : List String) (component : String) (items : List String) :
    List ℚ :=
  let itemsToReturn := samples.foldl
    (fun acc sample =>
      accumItemsGo acc (items.map fun item => read sample component item) 0)
    []
  itemsToReturn.map fun item => item / (samples.length : ℚ)

/-- Decidable equality for `Except`, by case analysis on the two values. -/
instance {ε α : Type} [DecidableEq ε] [DecidableEq α] :
    DecidableEq (Except ε α) := fun x y =>
  match x, y with
  | Except.error e, Except.error f =>
      if h : e = f then isTrue (by rw [h]) else
        isFalse (by intro hc; cases hc; exact h rfl)
  | Except.error _, Except.ok _ => isFalse (by intro hc; cases hc)
  | Except.ok _, Except.error _ => isFalse (by intro hc; cases hc)
  | Except.ok a, Except.ok b =>
      if h : a = b then isTrue (by rw [h]) else
        isFalse (by intro hc; cases hc; exact h rfl)

/-! ## Concrete fixtures used to instantiate the theorems below -/

/-- A pixelization context whose `ang2pix` sends every angular position to
pixel 0, so that two catalog sources collide in one pixel; the
brightness-temperature conversion factor is 1. -/
def hpOverlap : HealpyCtx :=
  { ang2pix := fun _ _ => 0
    pix2ang := fun _ _ => (0, 0)
    nside2resol := fun _ => 1
    queryDisc := fun _ _ _ => []
    angdist := fun _ _ => 0
    gaussianBeam2D := fun _ _ => 0
    brightnessFactor := fun _ _ => 1
    fwhmSigmaRatio := 2 }

/-- A two-source point-source component at `nside = 1` (12 pixels). -/
def psOverlap : PointSourceComp :=
  { nside := 1, angularCoords := [(0, 0), (10, 10)], freqRef := 100 }

/-- An archive without a parameter group (`ChainVersion.OLD`) whose
component reads would all succeed if they were ever attempted. -/
def oldChainFixture : ChainArchive :=
  { version := ChainVersion.old
    components := ["cmb", "dust"]
    readComp := fun c => Except.ok { name := c, ampNside := 64 } }

/-- A well-formed (`CURRENT`) archive with two components. -/
def goodChainFixture : ChainArchive :=
  { version := ChainVersion.current
    components := ["cmb", "dust"]
    readComp := fun c => Except.ok { name := c, ampNside := 64 } }

/-- Trivial interpolation collaborators for the bandpass module. -/
def bpmodZero : BandpassModule :=
  { interp1d := fun _ _ _ => [], interp2d := fun _ _ _ => [] }

/-- A component with no spatially varying spectral parameter (`d = 0`). -/
def comp0Vary : BandpassComponent :=
  { spectralParameters := [("beta", ParamValue.scalar 2)]
    getFreqScaling := fun _ => [] }

/-- A component with three spatially varying spectral parameters
(`d = 3`). -/
def comp3Vary : BandpassComponent :=
  { spectralParameters :=
      [("b1", ParamValue.pixmap [1]), ("b2", ParamValue.pixmap [1]),
       ("b3", ParamValue.pixmap [1])]
    getFreqScaling := fun _ => [] }

/-! ## Helper lemmas -/

theorem lookup_cons_unfold (a k : String) (v : SkyComp)
    (l : List (String × SkyComp)) :
    ((k, v) :: l).lookup a = if a == k then some v else l.lookup a := by
  simp only [List.lookup]
  cases h : a == k <;> simp [h]

theorem lookup_none_keys {l : List (String × SkyComp)} {a : String}
    (h : l.lookup a = none) : ∀ p ∈ l, p.1 ≠ a := by
  induction l with
  | nil => intro p hp; simp at hp
  | cons hd tl ih =>
    obtain ⟨k, v⟩ := hd
    rw [lookup_cons_unfold] at h
    by_cases hak : a = k
    · simp [hak] at h
    · intro p hp
      rcases List.mem_cons.mp hp with rfl | hp
      · simpa using fun hk => hak hk.symm
      · exact ih (by simpa [hak] using h) p hp

theorem lookup_append_of_none {l : List (String × SkyComp)} {a : String}
    (h : l.lookup a = none) (c : SkyComp) :
    (l ++ [(a, c)]).lookup a = some c := by
  induction l with
  | nil => simp [List.lookup]
  | cons hd tl ih =>
    obtain ⟨k, v⟩ := hd
    rw [lookup_cons_unfold] at h
    rw [List.cons_append, lookup_cons_unfold]
    by_cases hak : a = k
    · simp [hak] at h
    · simpa [hak] using ih (by simpa [hak] using h)

theorem filter_ne_of_lookup_none {l : List (String × SkyComp)} {a : String}
    (h : l.lookup a = none) :
    l.filter (fun p => p.1 ≠ a) = l := by
  rw [List.filter_eq_self]
  intro p hp
  simpa using lookup_none_keys h p hp

theorem keys_append_single (l : List (String × SkyComp)) (a : String)
    (c : SkyComp) :
    ((l ++ [(a, c)]).map Prod.fst).toFinset
      = insert a (l.map Prod.fst).toFinset := by
  ext x
  simp [or_comm]

theorem keys_filter_ne (l : List (String × SkyComp)) (a : String) :
    ((l.filter fun p => p.1 ≠ a).map Prod.fst).toFinset
      = ((l.map Prod.fst).toFinset).erase a := by
  ext x
  simp only [List.mem_toFinset, List.mem_map, List.mem_filter,
    Finset.mem_erase, decide_eq_true_eq]
  constructor
  · rintro ⟨p, ⟨hp, hne⟩, rfl⟩
    exact ⟨hne, p, hp, rfl⟩
  · rintro ⟨hx, p, hp, rfl⟩
    exact ⟨p, ⟨hp, hx⟩, rfl⟩

theorem accumItemsGo_of_length_eq (vals : List ℚ) :
    ∀ acc : List ℚ, accumItemsGo acc vals acc.length = acc ++ vals := by
  induction vals with
  | nil => intro acc; simp [accumItemsGo]
  | cons v vs ih =>
    intro acc
    rw [accumItemsGo, if_neg (lt_irrefl acc.length)]
    have h := ih (acc ++ [v])
    rw [List.length_append, List.length_singleton] at h
    simpa using h

theorem getD_append_length (pre : List ℚ) (p : ℚ) (ps : List ℚ) :
    (pre ++ p :: ps).getD pre.length 0 = p := by
  induction pre with
  | nil => simp
  | cons x xs ih => simpa using ih

theorem set_append_length (pre : List ℚ) (p w : ℚ) (ps : List ℚ) :
    (pre ++ p :: ps).set pre.length w = pre ++ w :: ps := by
  induction pre with
  | nil => simp
  | cons x xs ih => simp [List.set, ih]

theorem accumItemsGo_zip (vs : List ℚ) :
    ∀ pre post : List ℚ, post.length = vs.length →
    accumItemsGo (pre ++ post) vs pre.length
      = pre ++ List.zipWith (· + ·) post vs := by
  induction vs with
  | nil =>
    intro pre post h
    have : post = [] := List.eq_nil_of_length_eq_zero h
    subst this
    simp [accumItemsGo]
  | cons v vs ih =>
    intro pre post h
    cases post with
    | nil => simp at h
    | cons p ps =>
      have hlt : pre.length < (pre ++ p :: ps).length := by
        simp
      rw [accumItemsGo, if_pos hlt, getD_append_length, set_append_length]
      have hre : pre ++ (p + v) :: ps = (pre ++ [p + v]) ++ ps := by simp
      have hlen : pre.length + 1 = (pre ++ [p + v]).length := by simp
      rw [hre, hlen, ih (pre ++ [p + v]) ps (by simpa using h)]
      simp

theorem zipWith_add_replicate (n : Nat) (x v : ℚ) :
    List.zipWith (· + ·) (List.replicate n x) (List.replicate n v)
      = List.replicate n (x + v) := by
  induction n with
  | zero => simp
  | succ k ih => simp [List.replicate_succ, ih]

theorem accumItemsGo_replicate (n : Nat) (x v : ℚ) :
    accumItemsGo (List.replicate n x) (List.replicate n v) 0
      = List.replicate n (x + v) := by
  have h := accumItemsGo_zip (List.replicate n v) [] (List.replicate n x)
    (by simp)
  simpa [zipWith_add_replicate] using h

theorem initComponents_keys (chain : ChainArchive) (cs : List String) :
    ∀ acc res : List (String × SkyComp),
    initComponents chain cs acc = Except.ok res →
    res.map Prod.fst = acc.map Prod.fst ++ cs := by
  induction cs with
  | nil =>
    intro acc res h
    simp only [initComponents] at h
    cases h
    simp
  | cons c cs ih =>
    intro acc res h
    simp only [initComponents] at h
    cases hr : chain.readComp c with
    | error e => rw [hr] at h; cases h
    | ok d =>
      rw [hr] at h
      have h' := ih (acc ++ [(c, d)]) res h
      simpa using h'

/-! ## Claim theorems -/

/-- C9: the output map resolution of `_points_to_map` is taken
unconditionally from the component's own `nside` attribute (line 455
rebinds `nside = self.nside` before any use), so any two values of the
`nside` parameter — including none at all — produce the same result. -/
theorem points_to_map_ignores_nside_argument
    (hp : HealpyCtx) (self : PointSourceComp) (amp : List ℚ)
    (n₁ n₂ : Option Nat) (fwhm : ℚ) (sigmaArg : Option ℚ) (nFwhm : ℚ) :
    pointsToMap hp self amp n₁ fwhm sigmaArg nFwhm
      = pointsToMap hp self amp n₂ fwhm sigmaArg nFwhm := rfl

/-- C2: the `tools/h5.py` reconstruction compares the literal string
`'key'` against `'amp'` when deciding the polarization flag for alm data,
so the flag it hands to `hp.alm2map` is false for every argument —
including the amplitude of a 3-channel component, where the claim (and the
`chain/model.py` reconstruction, which tests `arg == "amp" and
value.shape[0] == 3`) requires it to be true. -/
theorem h5_alm_pol_flag_always_false :
    almPolFlagH5 "amp" = false ∧
    h5AlmPolFlags ["amp", "beta"] = [("amp", false), ("beta", false)] ∧
    almPolFlagChainModel "amp" 3 = true ∧
    almPolFlagChainModel "amp" 1 = false ∧
    almPolFlagChainModel "beta" 3 = false := by decide

/-- C1: with `sigma == 0`, `_points_to_map` deposits the amplitudes with
the numpy fancy-index assignment `healpix_map[pixels] = amp`, so when two
sources fall in the same pixel the later amplitude overwrites the earlier
one instead of accumulating: two colliding sources of amplitudes 1 and 2
leave the pixel at 2, not 1 + 2.  The no-beam warning is emitted. -/
theorem points_to_map_sigma0_overwrites_on_collision :
    pointsToMap hpOverlap psOverlap [1, 2] none 0 none 2
      = Except.ok
          (["mapping point sources to pixels without beam smoothing."],
           [[2, 0, 0, 0, 0, 0, 0, 0, 0, 0, 0, 0]]) ∧
    (2 : ℚ) ≠ 1 + 2 := by
  constructor
  · unfold pointsToMap hpOverlap psOverlap fancyIndexAssign nside2npix
    norm_num [List.replicate, List.set]
  · norm_num

/-- C6 (counterexample): `_reshape_freq_ref` returns a single-element
reference frequency unchanged — a scalar of shape `()` stays shape `()`,
which is neither `(1, 1)` nor `(3, 1)`, contradicting the claim that a
single value is broadcast-reshaped to shape `(channels, 1)`. -/
theorem reshape_freq_ref_scalar_unchanged :
    reshapeFreqRef (some { shape := [], data := [5] })
      = Except.ok (some { shape := [], data := [5] }) ∧
    ([] : List Nat) ≠ [1, 1] ∧ ([] : List Nat) ≠ [3, 1] :=
  ⟨rfl, by decide, by decide⟩

/-- C6 (amended): a single-element reference frequency is stored unchanged
in its given shape (broadcasting is relied upon instead of a reshape); a
two-element input `[a, b]` becomes the column `[[a], [b], [b]]` of shape
`(3, 1)`; a three-element input is reshaped to `(3, 1)`; any other size
raises `ValueError('Unrecognized shape.')`; `None` passes through. -/
theorem reshape_freq_ref_cases (f : NDArray) :
    (∀ x, f.data = [x] → reshapeFreqRef (some f) = Except.ok (some f)) ∧
    (∀ a b, f.data = [a, b] →
      reshapeFreqRef (some f)
        = Except.ok (some { shape := [3, 1], data := [a, b, b] })) ∧
    (∀ a b c, f.data = [a, b, c] →
      reshapeFreqRef (some f)
        = Except.ok (some { shape := [3, 1], data := [a, b, c] })) ∧
    (f.data = [] ∨ 4 ≤ f.data.length →
      reshapeFreqRef (some f) = Except.error "Unrecognized shape.") ∧
    reshapeFreqRef none = Except.ok none := by
  refine ⟨?_, ?_, ?_, ?_, rfl⟩
  · intro x hx
    simp [reshapeFreqRef, hx]
  · intro a b hab
    simp [reshapeFreqRef, hab]
  · intro a b c habc
    simp [reshapeFreqRef, habc]
  · intro h
    rcases hd : f.data with _ | ⟨a, _ | ⟨b, _ | ⟨c, _ | ⟨d, t⟩⟩⟩⟩ <;>
      simp [hd] at h ⊢ <;> simp [reshapeFreqRef, hd]

/-- Witness for `reshape_freq_ref_cases` at concrete inputs of sizes one,
two and four. -/
theorem reshape_freq_ref_cases_witness :
    reshapeFreqRef (some { shape := [1], data := [7] })
      = Except.ok (some { shape := [1], data := [7] }) ∧
    reshapeFreqRef (some { shape := [2], data := [30, 44] })
      = Except.ok (some { shape := [3, 1], data := [30, 44, 44] }) ∧
    reshapeFreqRef (some { shape := [4], data := [1, 2, 3, 4] })
      = Except.error "Unrecognized shape." :=
  ⟨(reshape_freq_ref_cases { shape := [1], data := [7] }).1 7 rfl,
   (reshape_freq_ref_cases { shape := [2], data := [30, 44] }).2.1 30 44 rfl,
   (reshape_freq_ref_cases
      { shape := [4], data := [1, 2, 3, 4] }).2.2.2.1 (Or.inr (by decide))⟩

/-- C4: when the model resolution is already fixed at `n` and a component
whose amplitude-map resolution differs is inserted (under a fresh name, so
that the earlier duplicate-name check does not fire), `_add_component`
raises `NsideError` (spec: `ResolutionMismatchError`) before any mutation:
the returned state is exactly the input model — components, nside and
attributes all unchanged. -/
theorem insert_nside_mismatch_atomic (m : Model) (c : SkyComp) (n : Nat)
    (hfix : m.nside = some n) (hdiff : c.ampNside ≠ n)
    (hfresh : m.components.lookup c.name = none) :
    m.insert c = (m, some ModelError.nsideMismatch) := by
  unfold Model.insert Model.addComponent
  rw [hfresh, hfix]
  simp [hdiff]

/-- Witness for `insert_nside_mismatch_atomic`: a model holding `dust` at
nside 64 rejects `synch` at nside 128 and is left unchanged. -/
theorem insert_nside_mismatch_atomic_witness :
    (Model.empty.insert { name := "dust", ampNside := 64 }).1.insert
        { name := "synch", ampNside := 128 }
      = ((Model.empty.insert { name := "dust", ampNside := 64 }).1,
         some ModelError.nsideMismatch) :=
  insert_nside_mismatch_atomic _ _ 64 (by decide) (by decide) (by decide)

/-- C3 (counterexample): inserting a first component into a model with
unset resolution and then removing it leaves the resolution fixed at the
component's nside — `__delitem__` never resets `self.nside`, so the
resolution does not revert to unset as the claim states. -/
theorem insert_remove_nside_not_reverted :
    ((Model.empty.insert { name := "dust", ampNside := 64 }).1.remove
        "dust").1.nside ≠ Model.empty.nside ∧
    (Model.empty.insert { name := "dust", ampNside := 64 }).2 = none ∧
    ((Model.empty.insert { name := "dust", ampNside := 64 }).1.remove
        "dust").2 = none ∧
    ((Model.empty.insert { name := "dust", ampNside := 64 }).1.remove
        "dust").1.components = Model.empty.components := by decide

/-- C3 (amended): a successful insert followed by remove of the same
component name succeeds and restores the component mapping (and erases the
component-named attribute), but the resolution does not revert: it ends at
the model's prior resolution when one was set, and at the inserted
component's resolution — not unset — when the insert was the first. -/
theorem insert_remove_restores_components_not_nside
    (m : Model) (c : SkyComp) (hins : (m.insert c).2 = none) :
    ((m.insert c).1.remove c.name).2 = none ∧
    ((m.insert c).1.remove c.name).1.components = m.components ∧
    ((m.insert c).1.remove c.name).1.nside
      = some (m.nside.getD c.ampNside) ∧
    ((m.insert c).1.remove c.name).1.attrs = m.attrs.erase c.name := by
  unfold Model.insert Model.addComponent at hins ⊢
  by_cases hd : (m.components.lookup c.name).isSome
  · simp [hd] at hins
  · have hnone : m.components.lookup c.name = none :=
      Option.not_isSome_iff_eq_none.mp hd
    rw [Bool.not_eq_true] at hd
    cases hn : m.nside with
    | none =>
        simp only [hd, hn, Bool.false_eq_true, if_false]
        unfold Model.remove Model.delComponent
        simp only [lookup_append_of_none hnone c, Option.isNone_some,
          Bool.false_eq_true, if_false, List.filter_append]
        refine ⟨trivial, ?_, ?_, Finset.erase_insert_eq_erase _ _⟩
        · rw [filter_ne_of_lookup_none hnone]
          simp
        · simp
    | some n =>
        simp only [hd, hn, Bool.false_eq_true, if_false] at hins ⊢
        by_cases hne : c.ampNside ≠ n
        · simp [hne] at hins
        · simp only [hne, if_false]
          unfold Model.remove Model.delComponent
          simp only [lookup_append_of_none hnone c, Option.isNone_some,
            Bool.false_eq_true, if_false, List.filter_append]
          refine ⟨trivial, ?_, ?_, Finset.erase_insert_eq_erase _ _⟩
          · rw [filter_ne_of_lookup_none hnone]
            simp
          · simp

/-- Witness for `insert_remove_restores_components_not_nside`: insert
`dust` into the fresh model, remove it again. -/
theorem insert_remove_restores_witness :
    ((Model.empty.insert { name := "dust", ampNside := 64 }).1.remove
        "dust").2 = none ∧
    ((Model.empty.insert { name := "dust", ampNside := 64 }).1.remove
        "dust").1.components = Model.empty.components ∧
    ((Model.empty.insert { name := "dust", ampNside := 64 }).1.remove
        "dust").1.nside = some (Model.empty.nside.getD 64) ∧
    ((Model.empty.insert { name := "dust", ampNside := 64 }).1.remove
        "dust").1.attrs = Model.empty.attrs.erase "dust" :=
  insert_remove_restores_components_not_nside Model.empty
    { name := "dust", ampNside := 64 } (by decide)

/-- C10: every successful insert binds the component name both as an
attribute and as a dict key, every successful remove deletes both, and a
failed operation leaves the state untouched, so any sequence of insert and
remove operations preserves the invariant that the set of component-named
attributes equals the key set of the component mapping. -/
theorem attrs_match_components_after_ops (m : Model) (ops : List ModelOp)
    (h : m.attrsMatchComponents) :
    (m.applyOps ops).attrsMatchComponents := by
  induction ops generalizing m with
  | nil => simpa [Model.applyOps] using h
  | cons op rest ih =>
    have hstep : (m.applyOp op).attrsMatchComponents := by
      cases op with
      | ins c =>
          unfold Model.applyOp Model.insert Model.addComponent
          by_cases hd : (m.components.lookup c.name).isSome
          · simpa [hd] using h
          · rw [Bool.not_eq_true] at hd
            cases hn : m.nside with
            | none =>
                simp only [hd, hn, Bool.false_eq_true, if_false]
                unfold Model.attrsMatchComponents at h ⊢
                simp only [keys_append_single]
                rw [h]
            | some n =>
                by_cases hne : c.ampNside ≠ n
                · simpa [hd, hn, hne] using h
                · simp only [hd, hn, hne, Bool.false_eq_true, if_false]
                  unfold Model.attrsMatchComponents at h ⊢
                  simp only [keys_append_single]
                  rw [h]
      | del name =>
          unfold Model.applyOp Model.remove Model.delComponent
          by_cases hd : (m.components.lookup name).isNone
          · simpa [hd] using h
          · rw [Bool.not_eq_true] at hd
            simp only [hd, Bool.false_eq_true, if_false]
            unfold Model.attrsMatchComponents at h ⊢
            simp only [keys_filter_ne]
            rw [h]
    simpa [Model.applyOps] using ih (m.applyOp op) hstep

/-- Witness for `attrs_match_components_after_ops`: a mixed successful and
failing sequence starting from the fresh model. -/
theorem attrs_match_components_after_ops_witness :
    (Model.empty.applyOps
      [ModelOp.ins { name := "dust", ampNside := 64 },
       ModelOp.ins { name := "synch", ampNside := 32 },
       ModelOp.del "dust",
       ModelOp.del "cmb"]).attrsMatchComponents :=
  attrs_match_components_after_ops Model.empty _
    (by simp [Model.attrsMatchComponents, Model.empty])

/-- C5: reconstructing from an archive without the parameter group
(`ChainVersion.OLD`) fails with `ChainFormatError` before any component
read is attempted (the result does not depend on `readComp`, which is
universally quantified as a field of `chain`), and no failed
reconstruction returns a partial model: a returned model holds exactly the
requested components, in order. -/
theorem old_chain_fails_before_any_read (chain : ChainArchive)
    (componentsArg : Option (List String)) :
    (chain.version = ChainVersion.old →
      modelFromChain chain componentsArg
        = Except.error ChainError.chainFormatError) ∧
    (∀ res, modelFromChain chain componentsArg = Except.ok res →
      res.map Prod.fst = componentsArg.getD chain.components) := by
  constructor
  · intro hold
    unfold modelFromChain
    rw [if_pos hold]
  · intro res h
    unfold modelFromChain at h
    by_cases hv : chain.version = ChainVersion.old
    · rw [if_pos hv] at h
      cases h
    · rw [if_neg hv] at h
      cases componentsArg with
      | none =>
          simpa using initComponents_keys chain chain.components [] res h
      | some cs =>
          have hh : (if (cs.any fun c => !(chain.components.contains c)) = true
              then (Except.error ChainError.chainComponentNotFoundError :
                Except ChainError (List (String × SkyComp)))
              else initComponents chain cs []) = Except.ok res := h
          by_cases hc : (cs.any fun c => !(chain.components.contains c)) = true
          · rw [if_pos hc] at hh
            cases hh
          · rw [if_neg hc] at hh
            simpa using initComponents_keys chain cs [] res hh

/-- Witness for `old_chain_fails_before_any_read`: the OLD archive fails
with the format error; the CURRENT archive restricted to `cmb` returns
exactly the one requested component. -/
theorem old_chain_fails_witness :
    modelFromChain oldChainFixture none
      = Except.error ChainError.chainFormatError ∧
    List.map Prod.fst
        [("cmb", ({ name := "cmb", ampNside := 64 } : SkyComp))]
      = (some ["cmb"]).getD goodChainFixture.components :=
  ⟨(old_chain_fails_before_any_read oldChainFixture none).1 rfl,
   (old_chain_fails_before_any_read goodChainFixture (some ["cmb"])).2
     [("cmb", { name := "cmb", ampNside := 64 })] (by decide)⟩

/-- C7: `_get_bandpass_scaling` raises (`NotImplementedError`, spec name
`UnsupportedParameterDimensionality`) exactly when more than two spectral
parameters vary spatially; for `d` in 0, 1, 2 it returns a value without
that error. -/
theorem bandpass_scaling_dimensionality
    (bpmod : BandpassModule) (comp : BandpassComponent)
    (freqs bandpass : List ℚ) :
    (2 < (getInterpolationGrid comp.spectralParameters).length →
      getBandpassScaling bpmod comp freqs bandpass
        = Except.error ScalingError.unsupportedParameterDimensionality) ∧
    ((getInterpolationGrid comp.spectralParameters).length ≤ 2 →
      ∃ scalingFactor, getBandpassScaling bpmod comp freqs bandpass
        = Except.ok scalingFactor) := by
  rcases hg : getInterpolationGrid comp.spectralParameters with
    _ | ⟨a, _ | ⟨b, _ | ⟨c, t⟩⟩⟩ <;>
    constructor <;>
    intro h <;>
    simp [getBandpassScaling, hg] at h ⊢ <;>
    omega

/-- Witness for `bandpass_scaling_dimensionality`: three spatially varying
parameters give the error, zero succeed. -/
theorem bandpass_scaling_dimensionality_witness :
    getBandpassScaling bpmodZero comp3Vary [] []
      = Except.error ScalingError.unsupportedParameterDimensionality ∧
    ∃ scalingFactor, getBandpassScaling bpmodZero comp0Vary [] []
      = Except.ok scalingFactor :=
  ⟨(bandpass_scaling_dimensionality bpmodZero comp3Vary [] []).1
      (by decide),
   (bandpass_scaling_dimensionality bpmodZero comp0Vary [] []).2
      (by decide)⟩

theorem foldAccum_replicate (read : String → String → String → ℚ)
    (component : String) (items : List String) (v : ℚ) :
    ∀ (ss : List String) (x : ℚ),
    (∀ s ∈ ss, ∀ it ∈ items, read s component it = v) →
    ss.foldl
      (fun acc sample =>
        accumItemsGo acc (items.map fun item => read sample component item) 0)
      (List.replicate items.length x)
      = List.replicate items.length (x + ss.length * v) := by
  intro ss
  induction ss with
  | nil => intro x h; simp
  | cons s ss ih =>
    intro x h
    have hmap : items.map (fun item => read s component item)
        = List.replicate items.length v := by
      rw [List.map_congr_left
        (fun it hit => h s (List.mem_cons_self s ss) it hit)]
      simp
    rw [List.foldl_cons, hmap, accumItemsGo_replicate,
      ih (x + v) (fun s' hs' it hit => h s' (List.mem_cons_of_mem s hs') it hit)]
    congr 1
    rw [List.length_cons]
    push_cast
    ring

/-- C8: averaging a constant-valued archive field over a non-empty sample
list returns exactly that value (exact rational arithmetic). -/
theorem averaged_items_constant
    (read : String → String → String → ℚ) (samples : List String)
    (component : String) (items : List String) (v : ℚ)
    (hne : samples ≠ [])
    (hconst : ∀ s ∈ samples, ∀ it ∈ items, read s component it = v) :
    getAveragedItems read samples component items
      = items.map fun _ => v := by
  cases samples with
  | nil => exact absurd rfl hne
  | cons s₀ rest =>
    unfold getAveragedItems
    rw [List.foldl_cons]
    have h0 : items.map (fun item => read s₀ component item)
        = List.replicate items.length v := by
      rw [List.map_congr_left
        (fun it hit => hconst s₀ (List.mem_cons_self s₀ rest) it hit)]
      simp
    rw [h0]
    have hnil : accumItemsGo [] (List.replicate items.length v) 0
        = List.replicate items.length v := by
      simpa using accumItemsGo_of_length_eq (List.replicate items.length v) []
    rw [hnil]
    rw [foldAccum_replicate read component items v rest v
      (fun s hs it hit => hconst s (List.mem_cons_of_mem s₀ hs) it hit)]
    rw [List.map_replicate]
    have hlen : ((s₀ :: rest).length : ℚ) = (rest.length : ℚ) + 1 := by
      push_cast [List.length_cons]
      ring
    have hval : (v + rest.length * v) / ((s₀ :: rest).length : ℚ) = v := by
      rw [hlen]
      have hrw : v + (rest.length : ℚ) * v = ((rest.length : ℚ) + 1) * v := by
        ring
      rw [hrw, mul_div_cancel_left₀]
      positivity
    rw [hval]
    simp

/-- Witness for `averaged_items_constant`: three samples of the constant 7
over two items. -/
theorem averaged_items_constant_witness :
    getAveragedItems (fun _ _ _ => 7) ["000003", "000004", "000005"] "cmb"
        ["amp_map", "beta_map"]
      = ["amp_map", "beta_map"].map (fun _ => (7 : ℚ)) :=
  averaged_items_constant (fun _ _ _ => 7) ["000003", "000004", "000005"]
    "cmb" ["amp_map", "beta_map"] 7 (by simp) (fun _ _ _ _ => rfl)

end Cosmoglobe
